import Mathlib

/-!
Shallow embedding of the basaltclient blob data plane.

Bytes are modelled as `Nat` values (with explicit `% 256` where the Go code
truncates), `uint64` values as `Nat` with explicit `% 2 ^ 64` where overflow
matters, Go `int`/`int64` as `Int`, byte buffers as `List Nat`, and fallible
functions as `Except`/`Option`.
-/

/-! ## Wire codec (src/blob_protocol.go) -/

/-- ProtocolMagic is the magic byte that starts every request and response. -/
def ProtocolMagic : Nat := 0xBA

/-- ObjectIDSize is the size of an object identifier (UUID) in bytes. -/
def ObjectIDSize : Nat := 16

/-- RequestHeaderSize: Magic(1) + OpCode(1) + ObjectID(16) + Offset(8) + Length(8) = 34. -/
def RequestHeaderSize : Nat := 34

/-- ResponseHeaderSize: Magic(1) + Status(1) + Length(8) = 10. -/
def ResponseHeaderSize : Nat := 10

/-- Operation codes for the wire protocol. -/
def OpAppend : Nat := 0x01

def OpAppendSync : Nat := 0x02

def OpRead : Nat := 0x03

/-- Status codes for response messages. -/
def StatusOK : Nat := 0x00

def StatusNotFound : Nat := 0x01

def StatusAlreadyExists : Nat := 0x02

def StatusSealed : Nat := 0x03

def StatusIOError : Nat := 0x04

def StatusInvalidOp : Nat := 0x05

def StatusBadRequest : Nat := 0x06

/-- Errors raised by the header decoders (`errors.Newf` contents in the Go source). -/
inductive ProtoErr where
  | bufferTooSmall (got want : Nat)
  | invalidMagic (b : Nat)
deriving DecidableEq, Repr

/-- binary.BigEndian.PutUint64: writes `v` as 8 big-endian bytes
(`byte(v >> 56)`, ..., `byte(v)`; `byte(\cdot)` truncates mod 256). -/
def putUint64BE (v : Nat) : List Nat :=
  [v / 2 ^ 56 % 256, v / 2 ^ 48 % 256, v / 2 ^ 40 % 256, v / 2 ^ 32 % 256,
   v / 2 ^ 24 % 256, v / 2 ^ 16 % 256, v / 2 ^ 8 % 256, v % 256]

/-- binary.BigEndian.Uint64: reads 8 big-endian bytes into a `uint64`. -/
def getUint64BE (b : List Nat) : Nat :=
  b.getD 0 0 * 2 ^ 56 + b.getD 1 0 * 2 ^ 48 + b.getD 2 0 * 2 ^ 40 + b.getD 3 0 * 2 ^ 32 +
    b.getD 4 0 * 2 ^ 24 + b.getD 5 0 * 2 ^ 16 + b.getD 6 0 * 2 ^ 8 + b.getD 7 0

/-- RequestHeader represents a request message header
({OpCode, ObjectID, Offset: u64, Length: u64}). -/
structure RequestHeader where
  opCode : Nat
  objectID : List Nat
  offset : Nat
  length : Nat
deriving DecidableEq, Repr

/-- Encode writes the request header to a byte slice:
buf[0] = magic, buf[1] = opcode, buf[2:18] = id, buf[18:26] = offset BE,
buf[26:34] = length BE. -/
def RequestHeader.Encode (h : RequestHeader) : List Nat :=
  ProtocolMagic :: h.opCode :: (h.objectID ++ (putUint64BE h.offset ++ putUint64BE h.length))

/-- DecodeRequestHeader reads a request header from a byte slice: rejects a
buffer shorter than `RequestHeaderSize` or whose first byte is not the magic. -/
def DecodeRequestHeader (buf : List Nat) : Except ProtoErr RequestHeader :=
  if buf.length < RequestHeaderSize then
    .error (.bufferTooSmall buf.length RequestHeaderSize)
  else if buf.getD 0 0 ≠ ProtocolMagic then
    .error (.invalidMagic (buf.getD 0 0))
  else
    .ok { opCode := buf.getD 1 0
          objectID := (buf.drop 2).take 16
          offset := getUint64BE ((buf.drop 18).take 8)
          length := getUint64BE ((buf.drop 26).take 8) }

/-- ResponseHeader represents a response message header ({Status, Length: u64}). -/
structure ResponseHeader where
  status : Nat
  length : Nat
deriving DecidableEq, Repr

/-- Encode writes the response header to a byte slice:
buf[0] = magic, buf[1] = status, buf[2:10] = length BE. -/
def ResponseHeader.Encode (h : ResponseHeader) : List Nat :=
  ProtocolMagic :: h.status :: putUint64BE h.length

/-- DecodeResponseHeader reads a response header from a byte slice: rejects a
buffer shorter than `ResponseHeaderSize` or whose first byte is not the magic. -/
def DecodeResponseHeader (buf : List Nat) : Except ProtoErr ResponseHeader :=
  if buf.length < ResponseHeaderSize then
    .error (.bufferTooSmall buf.length ResponseHeaderSize)
  else if buf.getD 0 0 ≠ ProtocolMagic then
    .error (.invalidMagic (buf.getD 0 0))
  else
    .ok { status := buf.getD 1 0
          length := getUint64BE ((buf.drop 2).take 8) }

/-- A request header whose fields fit the Go types
(`OpCode`/bytes are `byte`, offset and length are `uint64`). -/
def ValidRequestHeader (h : RequestHeader) : Prop :=
  h.opCode < 256 ∧ h.objectID.length = 16 ∧ (∀ b ∈ h.objectID, b < 256) ∧
    h.offset < 2 ^ 64 ∧ h.length < 2 ^ 64

/-- A response header whose fields fit the Go types. -/
def ValidResponseHeader (h : ResponseHeader) : Prop :=
  h.status < 256 ∧ h.length < 2 ^ 64

theorem putUint64BE_length (v : Nat) : (putUint64BE v).length = 8 := rfl

theorem getUint64BE_putUint64BE (v : Nat) (hv : v < 2 ^ 64) :
    getUint64BE (putUint64BE v) = v := by
  simp only [putUint64BE, getUint64BE, List.getD, List.get?, Option.getD]
  omega

theorem decode_encode_request (h : RequestHeader) (hid : h.objectID.length = 16)
    (hoff : h.offset < 2 ^ 64) (hlen : h.length < 2 ^ 64) :
    DecodeRequestHeader (RequestHeader.Encode h) = .ok h := by
  have henc : RequestHeader.Encode h =
      ProtocolMagic :: h.opCode ::
        (h.objectID ++ (putUint64BE h.offset ++ putUint64BE h.length)) := rfl
  have hlen34 : (RequestHeader.Encode h).length = 34 := by
    simp [henc, hid, putUint64BE_length]
  have hdrop2 : (RequestHeader.Encode h).drop 2 =
      h.objectID ++ (putUint64BE h.offset ++ putUint64BE h.length) := rfl
  have htake16 : ((RequestHeader.Encode h).drop 2).take 16 = h.objectID := by
    rw [hdrop2, ← hid, List.take_left]
  have hdrop18 : (RequestHeader.Encode h).drop 18 =
      putUint64BE h.offset ++ putUint64BE h.length := by
    have : (RequestHeader.Encode h).drop 18 = ((RequestHeader.Encode h).drop 2).drop 16 := by
      rw [List.drop_drop]
    rw [this, hdrop2, ← hid, List.drop_left]
  have htakeoff : ((RequestHeader.Encode h).drop 18).take 8 = putUint64BE h.offset := by
    rw [hdrop18, ← putUint64BE_length h.offset, List.take_left]
  have hdrop26 : (RequestHeader.Encode h).drop 26 = putUint64BE h.length := by
    have : (RequestHeader.Encode h).drop 26 = ((RequestHeader.Encode h).drop 18).drop 8 := by
      rw [List.drop_drop]
    rw [this, hdrop18, ← putUint64BE_length h.offset, List.drop_left]
  have htakelen : ((RequestHeader.Encode h).drop 26).take 8 = putUint64BE h.length := by
    rw [hdrop26, List.take_of_length_le (by rw [putUint64BE_length])]
  have hget0 : (RequestHeader.Encode h).getD 0 0 = ProtocolMagic := rfl
  have hget1 : (RequestHeader.Encode h).getD 1 0 = h.opCode := rfl
  rw [DecodeRequestHeader, if_neg (by simp [hlen34, RequestHeaderSize]),
    if_neg (by rw [hget0]; simp)]
  rw [hget1, htake16, htakeoff, htakelen,
    getUint64BE_putUint64BE _ hoff, getUint64BE_putUint64BE _ hlen]

theorem decode_encode_response (h : ResponseHeader) (hlen : h.length < 2 ^ 64) :
    DecodeResponseHeader (ResponseHeader.Encode h) = .ok h := by
  have hlen10 : (ResponseHeader.Encode h).length = 10 := by
    simp [ResponseHeader.Encode, putUint64BE_length]
  have hdrop2 : (ResponseHeader.Encode h).drop 2 = putUint64BE h.length := rfl
  have htake8 : ((ResponseHeader.Encode h).drop 2).take 8 = putUint64BE h.length := by
    rw [hdrop2, List.take_of_length_le (by rw [putUint64BE_length])]
  have hget0 : (ResponseHeader.Encode h).getD 0 0 = ProtocolMagic := rfl
  have hget1 : (ResponseHeader.Encode h).getD 1 0 = h.status := rfl
  rw [DecodeResponseHeader, if_neg (by simp [hlen10, ResponseHeaderSize]),
    if_neg (by rw [hget0]; simp)]
  rw [hget1, htake8, getUint64BE_putUint64BE _ hlen]

/-! ## Data connection (src/internal/blob/data.go)

`doRequest` is modelled one-sided: the outbound request (header + src payload,
sent as one gather write) does not affect the model state, and the bytes the
server will send back are the free input `resp`.  The destination buffer is
represented by its length `dstLen`; the bytes the call copies into it are
returned in `dstBytes`. -/

/-- Errors returned by the data client. -/
inductive DataErr where
  | transport (stage : String)
  | badHeader (e : ProtoErr)
  | errNotFound
  | errAlreadyExists
  | errSealed
  | errIOError
  | errInvalidOp
  | errBadRequest
  | unknownStatus (s : Nat)
deriving DecidableEq, Repr

/-- StatusCode.Error: returns an error for non-OK status codes
(nil for StatusOK, one named error per known status, Newf otherwise). -/
def statusErrorOf (s : Nat) : Option DataErr :=
  if s = StatusOK then none
  else if s = StatusNotFound then some .errNotFound
  else if s = StatusAlreadyExists then some .errAlreadyExists
  else if s = StatusSealed then some .errSealed
  else if s = StatusIOError then some .errIOError
  else if s = StatusInvalidOp then some .errInvalidOp
  else if s = StatusBadRequest then some .errBadRequest
  else some (.unknownStatus s)

/-- Observable outcome of one `doRequest` exchange: the returned byte count and
error, the bytes copied into the caller's buffer, the unconsumed part of the
response stream, and whether the connection survived (was not invalidated). -/
structure DoOutcome where
  n : Nat
  err : Option DataErr
  dstBytes : List Nat
  remaining : List Nat
  connValid : Bool
deriving DecidableEq, Repr

/-- Body of `doRequest` after a successfully decoded response header: read
`min hdr.length dstLen` bytes into dst, discard any excess announced bytes,
then translate a non-OK status into its named error with a 0 byte count. -/
def doRequestBody (hdr : ResponseHeader) (rest : List Nat) (dstLen : Nat) : DoOutcome :=
  if hdr.length = 0 then
    match statusErrorOf hdr.status with
    | some e => ⟨0, some e, [], rest, true⟩
    | none => ⟨0, none, [], rest, true⟩
  else if dstLen ≠ 0 then
    if rest.length < min hdr.length dstLen then
      ⟨0, some (.transport "reading response data"), rest, [], false⟩
    else if dstLen < hdr.length then
      if (rest.drop (min hdr.length dstLen)).length < hdr.length - dstLen then
        ⟨min hdr.length dstLen, some (.transport "discarding extra response data"),
          rest.take (min hdr.length dstLen), [], false⟩
      else
        match statusErrorOf hdr.status with
        | some e => ⟨0, some e, rest.take (min hdr.length dstLen),
            (rest.drop (min hdr.length dstLen)).drop (hdr.length - dstLen), true⟩
        | none => ⟨min hdr.length dstLen, none, rest.take (min hdr.length dstLen),
            (rest.drop (min hdr.length dstLen)).drop (hdr.length - dstLen), true⟩
    else
      match statusErrorOf hdr.status with
      | some e => ⟨0, some e, rest.take (min hdr.length dstLen),
          rest.drop (min hdr.length dstLen), true⟩
      | none => ⟨min hdr.length dstLen, none, rest.take (min hdr.length dstLen),
          rest.drop (min hdr.length dstLen), true⟩
  else
    if rest.length < hdr.length then
      ⟨0, some (.transport "discarding response data"), [], [], false⟩
    else
      match statusErrorOf hdr.status with
      | some e => ⟨0, some e, [], rest.drop hdr.length, true⟩
      | none => ⟨0, none, [], rest.drop hdr.length, true⟩

/-- doRequest: gather-writes `hdr` + `src` (not modelled), reads and decodes the
response header from `resp`, then reads the response data into a buffer of
length `dstLen` (excess announced bytes are discarded).  Transport and decode
failures invalidate the connection. -/
def doRequest (hdr : RequestHeader) (src : List Nat) (resp : List Nat) (dstLen : Nat) :
    DoOutcome :=
  let _ := hdr
  let _ := src
  if resp.length < ResponseHeaderSize then
    ⟨0, some (.transport "reading response header"), [], [], false⟩
  else
    match DecodeResponseHeader (resp.take ResponseHeaderSize) with
    | .error e => ⟨0, some (.badHeader e), [], resp.drop ResponseHeaderSize, false⟩
    | .ok h => doRequestBody h (resp.drop ResponseHeaderSize) dstLen

/-- Read: issues {OpRead, id, offset, len(p)} with no request payload and the
caller's buffer (of length `dstLen`) as destination; returns the byte count. -/
def DataClientRead (id : List Nat) (offset : Nat) (dstLen : Nat) (resp : List Nat) :
    DoOutcome :=
  doRequest ⟨OpRead, id, offset, dstLen⟩ [] resp dstLen

/-! ## Connection pool (src/internal/blob/pool.go)

DataClient instances are identified by their address plus a per-sub-pool
allocation index (`nextID`), which models Go pointer identity of
`NewDataClient` allocations.  Blocking `acquire` is modelled one-shot: the
at-capacity branch yields `wouldBlock` instead of suspending. -/

/-- defaultPoolSize is the default maximum number of connections per server. -/
def defaultPoolSize : Int := 8

/-- Identity of one DataClient connection instance. -/
structure DClient where
  addr : String
  id : Nat
deriving DecidableEq, Repr

/-- serverPool manages a pool of DataClient connections to a single server:
an available-clients LIFO stack (top at the end, as in the Go slice), the
total created count, and a closed flag.  `nextID` is the model's allocation
counter for fresh connections. -/
structure ServerPool where
  addr : String
  poolSize : Int
  clients : List DClient
  count : Int
  closed : Bool
  nextID : Nat
deriving DecidableEq, Repr

/-- newServerPool creates a new server pool for the given address. -/
def newServerPool (addr : String) (poolSize : Int) : ServerPool :=
  { addr := addr, poolSize := poolSize, clients := [], count := 0, closed := false, nextID := 0 }

/-- Result of one pass of `serverPool.acquire`. -/
inductive AcquireResult where
  | got (c : DClient)
  | closedNil
  | wouldBlock
deriving DecidableEq, Repr

/-- acquire returns a DataClient from the pool: nil if closed; else the top of
the LIFO stack if available; else a fresh client if below the size limit; else
the caller waits (`wouldBlock` in this one-shot model). -/
def ServerPool.acquire (sp : ServerPool) : AcquireResult × ServerPool :=
  if sp.closed then (.closedNil, sp)
  else
    match sp.clients.getLast? with
    | some c => (.got c, { sp with clients := sp.clients.dropLast })
    | none =>
      if sp.count < sp.poolSize then
        (.got ⟨sp.addr, sp.nextID⟩, { sp with count := sp.count + 1, nextID := sp.nextID + 1 })
      else (.wouldBlock, sp)

/-- What `serverPool.release` did with the connection. -/
inductive ReleaseAction where
  | connClosed
  | returnedToIdle
deriving DecidableEq, Repr

/-- release returns a healthy client to the pool: if the sub-pool is closed the
client is closed and dropped, otherwise it is pushed onto the LIFO stack and
one waiter is signalled.  The `Bool` records whether `cond.Signal` ran. -/
def ServerPool.release (sp : ServerPool) (c : DClient) : ServerPool × ReleaseAction × Bool :=
  if sp.closed then (sp, .connClosed, false)
  else ({ sp with clients := sp.clients ++ [c] }, .returnedToIdle, true)

/-- releaseWithError closes the client and frees its slot (decrements count),
then signals one waiter. -/
def ServerPool.releaseWithError (sp : ServerPool) (c : DClient) : ServerPool × Bool :=
  let _ := c
  ({ sp with count := sp.count - 1 }, true)

/-- close closes all idle clients, marks the sub-pool closed, and broadcasts. -/
def ServerPool.close (sp : ServerPool) : ServerPool :=
  { sp with closed := true, clients := [] }

/-- DataClientPool state: the per-server registry and the closed flag. -/
structure PoolState where
  poolSize : Int
  pools : List (String × ServerPool)
  closed : Bool
deriving DecidableEq, Repr

/-- Go map lookup `p.pools[addr]` over the association-list registry. -/
def findPool : List (String × ServerPool) → String → Option ServerPool
  | [], _ => none
  | (k, v) :: t, a => if k = a then some v else findPool t a

/-- Go map store `p.pools[addr] = sp` over the association-list registry. -/
def setPool : List (String × ServerPool) → String → ServerPool → List (String × ServerPool)
  | [], a, sp => [(a, sp)]
  | (k, v) :: t, a, sp => if k = a then (a, sp) :: t else (k, v) :: setPool t a sp

/-- NewDataClientPool with no options: default pool size, empty registry. -/
def NewDataClientPool : PoolState :=
  { poolSize := defaultPoolSize, pools := [], closed := false }

/-- WithPoolSize sets the maximum connections per server when positive. -/
def WithPoolSize (size : Int) (p : PoolState) : PoolState :=
  if 0 < size then { p with poolSize := size } else p

/-- Acquire: nil when the pool is closed; otherwise finds or lazily registers
the per-server sub-pool and acquires from it. -/
def PoolState.Acquire (p : PoolState) (addr : String) : AcquireResult × PoolState :=
  if p.closed then (.closedNil, p)
  else
    let sp := match findPool p.pools addr with
      | some sp => sp
      | none => newServerPool addr p.poolSize
    let r := sp.acquire
    (r.1, { p with pools := setPool p.pools addr r.2 })

/-- Outcome of `DataClientPool.Release`. -/
inductive PoolReleaseOutcome where
  | noop
  | sub (act : ReleaseAction) (signaled : Bool)
deriving DecidableEq, Repr

/-- Release: no-op for a nil client or when the client's server has no
registered sub-pool (as after `Close` cleared the registry); otherwise defers
to the sub-pool's release. -/
def PoolState.Release : PoolState → Option DClient → PoolState × PoolReleaseOutcome
  | p, none => (p, .noop)
  | p, some c =>
    match findPool p.pools c.addr with
    | none => (p, .noop)
    | some sp =>
      ({ p with pools := setPool p.pools c.addr (sp.release c).1 },
        .sub (sp.release c).2.1 (sp.release c).2.2)

/-- ReleaseWithError: like Release but defers to the sub-pool's
releaseWithError. -/
def PoolState.ReleaseWithError : PoolState → Option DClient → PoolState × PoolReleaseOutcome
  | p, none => (p, .noop)
  | p, some c =>
    match findPool p.pools c.addr with
    | none => (p, .noop)
    | some sp =>
      ({ p with pools := setPool p.pools c.addr (sp.releaseWithError c).1 },
        .sub .connClosed (sp.releaseWithError c).2)

/-- Close: idempotent; marks the pool closed and clears the registry (every
dropped sub-pool is closed via `serverPool.close`, which closes its idle
clients and broadcasts to waiters). -/
def PoolState.Close (p : PoolState) : PoolState :=
  if p.closed then p
  else { p with closed := true, pools := [] }

/-! ## Quorum writer (src/unnamed/part_012)

Replica errors are drawn from `QErr`; `replicaErr` injects an arbitrary error
value reported by a worker's `AppendSync`.  Go's `int64` offsets become `Int`
(`reportResult` compares `int64(offset) == w.currentOffset`).  The blocking
`waitForQuorum` is modelled by `firstDecision`: the waiter re-checks its
predicate after every `reportResult` signal, and the round's outcome is the
decision at the first state where the wait loop exits. -/

/-- Errors observable through the quorum writer. -/
inductive QErr where
  | errClosed
  | replicaErr (e : Nat)
deriving DecidableEq, Repr

/-- QuorumWriter state: cursor offset, current-round epoch offset, per-round
counters and last error, worker addresses, and the closed flag. -/
structure QWState where
  objectID : List Nat
  quorum : Nat
  offset : Int
  currentOffset : Int
  successCount : Nat
  failureCount : Nat
  lastError : Option QErr
  workers : List String
  closed : Bool
deriving DecidableEq, Repr

/-- newQuorumWriterWithFactory: majority quorum `len(replicas)/2 + 1`, one
worker per replica address, zeroed cursor and counters. -/
def newQuorumWriterWithFactory (objectID : List Nat) (replicas : List String) : QWState :=
  { objectID := objectID
    quorum := replicas.length / 2 + 1
    offset := 0
    currentOffset := 0
    successCount := 0
    failureCount := 0
    lastError := none
    workers := replicas
    closed := false }

/-- prepareWrite: fails with ErrClosed when closed; otherwise returns the
current cursor offset, advances the cursor by `len(data)`, records the epoch,
and resets the round's counters and last error. -/
def QWState.prepareWrite (w : QWState) (data : List Nat) : Except QErr (Int × QWState) :=
  if w.closed then .error .errClosed
  else
    .ok (w.offset,
      { w with
        offset := w.offset + data.length
        currentOffset := w.offset
        successCount := 0
        failureCount := 0
        lastError := none })

/-- reportResult: ignores results whose offset tag differs from the current
epoch; otherwise counts a success or a failure (recording the last error) and
signals the waiting caller. -/
def QWState.reportResult (w : QWState) (offset : Int) (err : Option QErr) : QWState :=
  if offset ≠ w.currentOffset then w
  else
    match err with
    | none => { w with successCount := w.successCount + 1 }
    | some e => { w with failureCount := w.failureCount + 1, lastError := some e }

/-- The exit check of `waitForQuorum`'s wait loop: `some none` when quorum is
reached (return nil), `some w.lastError` when quorum has become unreachable
(`failureCount > numWorkers - quorum` in Go int arithmetic), `none` while the
caller keeps waiting. -/
def waitDecision (numWorkers : Nat) (w : QWState) : Option (Option QErr) :=
  if w.quorum ≤ w.successCount then some none
  else if (numWorkers : Int) - (w.quorum : Int) < (w.failureCount : Int) then some w.lastError
  else none

/-- One reported result: the worker's offset tag and the `AppendSync` error. -/
abbrev RoundEvent := Int × Option QErr

/-- The round's outcome over a trace of `reportResult` events: the waiter
re-checks `waitDecision` before each event and returns the first decision;
`none` means the trace ended with the caller still blocked. -/
def firstDecision (numWorkers : Nat) (w : QWState) : List RoundEvent → Option (Option QErr)
  | [] => waitDecision numWorkers w
  | e :: es =>
    match waitDecision numWorkers w with
    | some d => some d
    | none => firstDecision numWorkers (w.reportResult e.1 e.2) es

/-- WriteAndSync over a given interleaving of worker reports: prepare the
round, fan out (the enqueue itself does not change writer state), then wait
for quorum over the reports. -/
def WriteAndSyncModel (w : QWState) (data : List Nat) (reports : List RoundEvent) :
    Except QErr (Option (Option QErr)) := do
  let r ← w.prepareWrite data
  pure (firstDecision r.2.workers.length r.2 reports)

/-- Number of events in a trace counted as successes for the round tagged `o`. -/
def countSucc (o : Int) : List RoundEvent → Nat
  | [] => 0
  | (t, r) :: es => (if t = o ∧ r = none then 1 else 0) + countSucc o es

/-- Number of events in a trace counted as failures for the round tagged `o`. -/
def countFail (o : Int) : List RoundEvent → Nat
  | [] => 0
  | (t, r) :: es => (if t = o ∧ r ≠ none then 1 else 0) + countFail o es

/-! ## Quorum writer lemmas -/

theorem reportResult_stale (w : QWState) (t : Int) (r : Option QErr)
    (h : t ≠ w.currentOffset) : w.reportResult t r = w := by
  simp [QWState.reportResult, h]

theorem reportResult_offset (w : QWState) (t : Int) (r : Option QErr) :
    (w.reportResult t r).offset = w.offset := by
  unfold QWState.reportResult
  split
  · rfl
  · cases r <;> rfl

theorem firstDecision_of_decision (N : Nat) (w : QWState) (l : List RoundEvent)
    (d : Option QErr) (h : waitDecision N w = some d) : firstDecision N w l = some d := by
  cases l <;> simp [firstDecision, h]

theorem firstDecision_success (N : Nat) (o : Int) (p : List RoundEvent) :
    ∀ (w : QWState) (rest : List RoundEvent),
      w.currentOffset = o →
      w.quorum ≤ w.successCount + countSucc o p →
      (w.failureCount : Int) + (countFail o p : Int) ≤ (N : Int) - (w.quorum : Int) →
      firstDecision N w (p ++ rest) = some none := by
  induction p with
  | nil =>
    intro w rest hco hs hf
    exact firstDecision_of_decision N w rest none
      (by unfold waitDecision; rw [if_pos (by simpa [countSucc] using hs)])
  | cons e p ih =>
    intro w rest hco hs hf
    obtain ⟨t, r⟩ := e
    by_cases hq : w.quorum ≤ w.successCount
    · exact firstDecision_of_decision N w _ none
        (by unfold waitDecision; rw [if_pos hq])
    · have hwd : waitDecision N w = none := by
        unfold waitDecision
        rw [if_neg hq, if_neg (by simp [countFail] at hf; omega)]
      rw [List.cons_append, show firstDecision N w ((t, r) :: (p ++ rest)) =
        firstDecision N (w.reportResult t r) (p ++ rest) from by
          simp [firstDecision, hwd]]
      by_cases ht : t = o
      · cases r with
        | none =>
          have hrr : w.reportResult t none = { w with successCount := w.successCount + 1 } := by
            simp [QWState.reportResult, ht, hco]
          rw [hrr]
          refine ih _ rest hco ?_ ?_
          · dsimp only
            simp [countSucc, ht] at hs; omega
          · simpa [countFail, ht] using hf
        | some err =>
          have hrr : w.reportResult t (some err) =
              { w with failureCount := w.failureCount + 1, lastError := some err } := by
            simp [QWState.reportResult, ht, hco]
          rw [hrr]
          refine ih _ rest hco ?_ ?_
          · simpa [countSucc, ht] using hs
          · simp [countFail, ht] at hf
            push_cast
            omega
      · rw [reportResult_stale w t r (by rw [hco]; exact ht)]
        refine ih _ rest hco ?_ ?_
        · simpa [countSucc, ht] using hs
        · simpa [countFail, ht] using hf

theorem firstDecision_failure (N : Nat) (o : Int) (p : List RoundEvent) :
    ∀ (w : QWState) (e : QErr) (rest : List RoundEvent),
      w.currentOffset = o →
      w.successCount + countSucc o p < w.quorum →
      (w.failureCount : Int) + (countFail o p : Int) = (N : Int) - (w.quorum : Int) →
      firstDecision N w (p ++ (o, some e) :: rest) = some (some e) := by
  induction p with
  | nil =>
    intro w e rest hco hs hf
    simp only [countSucc] at hs
    simp only [countFail, Nat.cast_zero, add_zero] at hf
    have hwd : waitDecision N w = none := by
      unfold waitDecision
      rw [if_neg (by omega), if_neg (by omega)]
    rw [List.nil_append, show firstDecision N w ((o, some e) :: rest) =
      firstDecision N (w.reportResult o (some e)) rest from by
        simp [firstDecision, hwd]]
    have hrr : w.reportResult o (some e) =
        { w with failureCount := w.failureCount + 1, lastError := some e } := by
      simp [QWState.reportResult, hco]
    rw [hrr]
    refine firstDecision_of_decision N _ rest (some e) ?_
    unfold waitDecision
    rw [if_neg (by simpa using hs), if_pos (by push_cast; omega)]
  | cons a p ih =>
    intro w e rest hco hs hf
    obtain ⟨t, r⟩ := a
    have hq : ¬ w.quorum ≤ w.successCount := by
      simp only [countSucc] at hs; omega
    have hwd : waitDecision N w = none := by
      unfold waitDecision
      rw [if_neg hq, if_neg (by simp [countFail] at hf; omega)]
    rw [List.cons_append, show firstDecision N w ((t, r) :: (p ++ (o, some e) :: rest)) =
      firstDecision N (w.reportResult t r) (p ++ (o, some e) :: rest) from by
        simp [firstDecision, hwd]]
    by_cases ht : t = o
    · cases r with
      | none =>
        have hrr : w.reportResult t none = { w with successCount := w.successCount + 1 } := by
          simp [QWState.reportResult, ht, hco]
        rw [hrr]
        refine ih _ e rest hco ?_ ?_
        · dsimp only
          simp [countSucc, ht] at hs; omega
        · simpa [countFail, ht] using hf
      | some err =>
        have hrr : w.reportResult t (some err) =
            { w with failureCount := w.failureCount + 1, lastError := some err } := by
          simp [QWState.reportResult, ht, hco]
        rw [hrr]
        refine ih _ e rest hco ?_ ?_
        · simpa [countSucc, ht] using hs
        · simp [countFail, ht] at hf
          push_cast
          omega
    · rw [reportResult_stale w t r (by rw [hco]; exact ht)]
      refine ih _ e rest hco ?_ ?_
      · simpa [countSucc, ht] using hs
      · simpa [countFail, ht] using hf

theorem prepareWrite_ok (w : QWState) (data : List Nat) (o : Int) (w1 : QWState)
    (h : w.prepareWrite data = .ok (o, w1)) :
    w.closed = false ∧ o = w.offset ∧
      w1 = { w with
              offset := w.offset + data.length
              currentOffset := w.offset
              successCount := 0
              failureCount := 0
              lastError := none } := by
  unfold QWState.prepareWrite at h
  split at h
  · exact absurd h (by simp)
  · simp only [Except.ok.injEq, Prod.mk.injEq] at h
    exact ⟨by simp_all, h.1.symm, h.2.symm⟩

/-- Decidable equality for `Except`, used to evaluate the model on concrete
inputs. -/
def exceptDecEq {e a : Type} [DecidableEq e] [DecidableEq a] :
    DecidableEq (Except e a)
  | .ok x, .ok y =>
    if h : x = y then .isTrue (by rw [h]) else .isFalse (by simp [h])
  | .ok _, .error _ => .isFalse (by simp)
  | .error _, .ok _ => .isFalse (by simp)
  | .error x, .error y =>
    if h : x = y then .isTrue (by rw [h]) else .isFalse (by simp [h])

instance {e a : Type} [DecidableEq e] [DecidableEq a] : DecidableEq (Except e a) :=
  exceptDecEq

/-- Worker reports folded into the writer state between rounds. -/
def procReports (w : QWState) (evs : List RoundEvent) : QWState :=
  evs.foldl (fun acc e => acc.reportResult e.1 e.2) w

theorem procReports_offset (evs : List RoundEvent) :
    ∀ (w : QWState), (procReports w evs).offset = w.offset := by
  induction evs with
  | nil => intro w; rfl
  | cons e t ih =>
    intro w
    show (procReports (w.reportResult e.1 e.2) t).offset = w.offset
    rw [ih, reportResult_offset]

/-- C1: for every N-replica quorum writer, the quorum computed at construction
is `floor(N/2) + 1`, and a WriteAndSync round returns nil as soon as a trace
prefix contains `quorum` successes attributed to the round's epoch (with at
most one report per replica in the round), independent of the remaining
replicas' reports `rest`. -/
theorem c1_quorum_majority :
    (∀ (objectID : List Nat) (replicas : List String),
      (newQuorumWriterWithFactory objectID replicas).quorum = replicas.length / 2 + 1) ∧
    (∀ (w : QWState) (data : List Nat) (o : Int) (w1 : QWState) (p rest : List RoundEvent),
      w.prepareWrite data = .ok (o, w1) →
      countSucc o p = w1.quorum →
      countSucc o p + countFail o p ≤ w1.workers.length →
      WriteAndSyncModel w data (p ++ rest) = .ok (some none)) := by
  constructor
  · intro objectID replicas
    rfl
  · intro w data o w1 p rest h hs hc
    obtain ⟨hcl, ho, hw1⟩ := prepareWrite_ok w data o w1 h
    subst hw1
    subst ho
    dsimp only at hs hc
    have hmod : WriteAndSyncModel w data (p ++ rest) =
        .ok (firstDecision w.workers.length
          { w with
            offset := w.offset + data.length
            currentOffset := w.offset
            successCount := 0
            failureCount := 0
            lastError := none } (p ++ rest)) := by
      unfold WriteAndSyncModel
      rw [h]
      rfl
    rw [hmod, firstDecision_success w.workers.length w.offset p _ rest rfl
      (by dsimp only; omega) (by dsimp only; omega)]

/-- C1 witness: three replicas, quorum 2; two successes for epoch 0 complete
the round with nil even though a third (failing) report is still outstanding. -/
theorem c1_witness :
    (newQuorumWriterWithFactory [] ["a", "b", "c"]).prepareWrite [1, 2] =
      .ok (0, { objectID := [], quorum := 2, offset := 2, currentOffset := 0,
                successCount := 0, failureCount := 0, lastError := none,
                workers := ["a", "b", "c"], closed := false }) ∧
    countSucc 0 [(0, none), (0, none)] = 2 ∧
    WriteAndSyncModel (newQuorumWriterWithFactory [] ["a", "b", "c"]) [1, 2]
        ([(0, none), (0, none)] ++ [(0, some (QErr.replicaErr 5))]) = .ok (some none) :=
  ⟨by decide, by decide,
    c1_quorum_majority.2 (newQuorumWriterWithFactory [] ["a", "b", "c"]) [1, 2] 0
      { objectID := [], quorum := 2, offset := 2, currentOffset := 0,
        successCount := 0, failureCount := 0, lastError := none,
        workers := ["a", "b", "c"], closed := false }
      [(0, none), (0, none)] [(0, some (QErr.replicaErr 5))]
      (by decide) (by decide) (by decide)⟩

/-- C2: a WriteAndSync round fails as soon as the failure count for the
round's epoch exceeds `N - quorum`; the error returned is the error of that
threshold-crossing report — the last error recorded in the round — regardless
of later reports `rest`. -/
theorem c2_failure_returns_last_error :
    ∀ (w : QWState) (data : List Nat) (o : Int) (w1 : QWState)
      (p rest : List RoundEvent) (e : QErr),
      w.prepareWrite data = .ok (o, w1) →
      (countFail o p : Int) = (w1.workers.length : Int) - (w1.quorum : Int) →
      countSucc o p + (countFail o p + 1) ≤ w1.workers.length →
      WriteAndSyncModel w data (p ++ (o, some e) :: rest) = .ok (some (some e)) := by
  intro w data o w1 p rest e h hf hc
  obtain ⟨hcl, ho, hw1⟩ := prepareWrite_ok w data o w1 h
  subst hw1
  subst ho
  dsimp only at hf hc
  have hmod : WriteAndSyncModel w data (p ++ (w.offset, some e) :: rest) =
      .ok (firstDecision w.workers.length
        { w with
          offset := w.offset + data.length
          currentOffset := w.offset
          successCount := 0
          failureCount := 0
          lastError := none } (p ++ (w.offset, some e) :: rest)) := by
    unfold WriteAndSyncModel
    rw [h]
    rfl
  rw [hmod, firstDecision_failure w.workers.length w.offset p _ e rest rfl
    (by dsimp only; omega) (by dsimp only; push_cast; omega)]

/-- C2 witness: three replicas, quorum 2; one failure for epoch 0 followed by
a second failure makes quorum unreachable, and the round returns the second
(last recorded) error without waiting for the third replica. -/
theorem c2_witness :
    (newQuorumWriterWithFactory [] ["a", "b", "c"]).prepareWrite [1] =
      .ok (0, { objectID := [], quorum := 2, offset := 1, currentOffset := 0,
                successCount := 0, failureCount := 0, lastError := none,
                workers := ["a", "b", "c"], closed := false }) ∧
    (countFail 0 [(0, some (QErr.replicaErr 1))] : Int) = 3 - 2 ∧
    WriteAndSyncModel (newQuorumWriterWithFactory [] ["a", "b", "c"]) [1]
        ([(0, some (QErr.replicaErr 1))] ++ (0, some (QErr.replicaErr 2)) :: []) =
      .ok (some (some (QErr.replicaErr 2))) :=
  ⟨by decide, by decide,
    c2_failure_returns_last_error (newQuorumWriterWithFactory [] ["a", "b", "c"]) [1] 0
      { objectID := [], quorum := 2, offset := 1, currentOffset := 0,
        successCount := 0, failureCount := 0, lastError := none,
        workers := ["a", "b", "c"], closed := false }
      [(0, some (QErr.replicaErr 1))] [] (QErr.replicaErr 2)
      (by decide) (by decide) (by decide)⟩

/-- Writer state of a fresh 3-replica writer after round 1's
`prepareWrite [9]` (epoch 0, cursor advanced to 1). -/
def c3W1 : QWState :=
  { objectID := [], quorum := 2, offset := 1, currentOffset := 0, successCount := 0,
    failureCount := 0, lastError := none, workers := ["a", "b", "c"], closed := false }

/-- Writer state after round 2's `prepareWrite [8]` on `c3W1` (epoch 1). -/
def c3W2 : QWState :=
  { objectID := [], quorum := 2, offset := 2, currentOffset := 1, successCount := 0,
    failureCount := 0, lastError := none, workers := ["a", "b", "c"], closed := false }

/-- C3 counterexample: with an accepted empty write, two consecutive rounds
share epoch offset 0 — round 1 is `prepareWrite []` (epoch 0), two successes
complete it, round 2 is `prepareWrite [7]` whose epoch is again 0 — so a
straggling round-1 result (tag 0) is counted toward round 2's quorum: round
2's success counter goes from 0 to 1. -/
theorem c3_counterexample :
    (((newQuorumWriterWithFactory [] ["a", "b", "c"]).prepareWrite []).bind
        (fun r1 => (((r1.2.reportResult 0 none).reportResult 0 none).prepareWrite [7]).map
          (fun r2 => (r1.1, r2.1, r2.2.successCount, (r2.2.reportResult 0 none).successCount)))) =
      .ok (0, 0, 0, 1) := by decide

/-- C3 amended: a reported result whose offset tag differs from the writer's
current epoch offset leaves the success counter, failure counter and last
error unchanged; and a result from a superseded round is never counted toward
a later round's quorum provided the superseded round's epoch differs from the
current one — which is guaranteed when the superseded round's payload was
non-empty (an accepted empty write leaves the cursor unchanged, so its epoch
can collide with the next round's). -/
theorem c3_stale_result_filtering :
    (∀ (w : QWState) (off : Int) (err : Option QErr),
      off ≠ w.currentOffset → w.reportResult off err = w) ∧
    (∀ (w : QWState) (d1 : List Nat) (o1 : Int) (w1 : QWState),
      d1 ≠ [] → w.prepareWrite d1 = .ok (o1, w1) →
      ∀ (evs : List RoundEvent) (d2 : List Nat) (o2 : Int) (w2 : QWState),
        (procReports w1 evs).prepareWrite d2 = .ok (o2, w2) →
        o1 ≠ o2 ∧ ∀ r, w2.reportResult o1 r = w2) := by
  constructor
  · intro w off err hoff
    exact reportResult_stale w off err hoff
  · intro w d1 o1 w1 hd h1 evs d2 o2 w2 h2
    obtain ⟨_, ho1, hw1⟩ := prepareWrite_ok w d1 o1 w1 h1
    obtain ⟨_, ho2, hw2⟩ := prepareWrite_ok (procReports w1 evs) d2 o2 w2 h2
    have hlen : 0 < d1.length := List.length_pos.mpr hd
    have hoff2 : (procReports w1 evs).offset = w.offset + d1.length := by
      rw [procReports_offset, hw1]
    have hne : o1 ≠ o2 := by
      rw [ho1, ho2, hoff2]
      omega
    refine ⟨hne, fun r => ?_⟩
    apply reportResult_stale
    rw [hw2]
    dsimp only
    rw [ho2] at hne
    exact hne

/-- C3 witness: a result tagged 5 against epoch 0 is discarded; and for a
non-empty round-1 payload the two consecutive epochs differ (0 versus 1), so
a straggling round-1 result is discarded by round 2. -/
theorem c3_witness :
    ((5 : Int) ≠ (newQuorumWriterWithFactory [] ["a", "b", "c"]).currentOffset ∧
      (newQuorumWriterWithFactory [] ["a", "b", "c"]).reportResult 5 none =
        newQuorumWriterWithFactory [] ["a", "b", "c"]) ∧
    (([9] : List Nat) ≠ [] ∧
      (0 : Int) ≠ 1 ∧
      c3W2.reportResult 0 (some (QErr.replicaErr 3)) = c3W2) := by
  have h3 := c3_stale_result_filtering.2 (newQuorumWriterWithFactory [] ["a", "b", "c"])
    [9] 0 c3W1 (by decide) (by decide) [(0, none)] [8] 1 c3W2 (by decide)
  exact ⟨⟨by decide, c3_stale_result_filtering.1 _ 5 none (by decide)⟩,
    by decide, h3.1, h3.2 (some (QErr.replicaErr 3))⟩

/-- C4 counterexample: an accepted `WriteAndSync` with empty payload — the
write is accepted (`.ok`), the epoch is the prior cursor 0, and the cursor
after the call is still 0: the cursor did not strictly increase. -/
theorem c4_counterexample :
    ((newQuorumWriterWithFactory [] ["a", "b", "c"]).prepareWrite []).map
        (fun r => (r.1, r.2.offset)) = .ok (0, 0) ∧
    (newQuorumWriterWithFactory [] ["a", "b", "c"]).offset = 0 := by decide

/-- C4 amended: every accepted (non-closed) call advances the cursor by
exactly `len(data)` — hence strictly increases it whenever `data` is non-empty
(an empty payload is accepted and leaves the cursor unchanged) — and records
the prior cursor value as the round's epoch, resetting the round counters. -/
theorem c4_cursor_advance (w : QWState) (data : List Nat) (h : w.closed = false) :
    w.prepareWrite data =
      .ok (w.offset,
        { w with
          offset := w.offset + data.length
          currentOffset := w.offset
          successCount := 0
          failureCount := 0
          lastError := none }) ∧
    (data ≠ [] → w.offset < w.offset + (data.length : Int)) := by
  refine ⟨by unfold QWState.prepareWrite; simp [h], fun hd => ?_⟩
  have hlen : 0 < data.length := List.length_pos.mpr hd
  omega

/-- C4 witness: a fresh writer accepts `[1, 2, 3]`, moving the cursor from 0
to 3 with epoch 0. -/
theorem c4_witness :
    (newQuorumWriterWithFactory [] ["a"]).closed = false ∧
    ((newQuorumWriterWithFactory [] ["a"]).prepareWrite [1, 2, 3]).map
        (fun r => (r.1, r.2.offset, r.2.currentOffset)) = .ok (0, 3, 0) ∧
    (newQuorumWriterWithFactory [] ["a"]).offset <
      (newQuorumWriterWithFactory [] ["a"]).offset + (([1, 2, 3] : List Nat).length : Int) := by
  have h := c4_cursor_advance (newQuorumWriterWithFactory [] ["a"]) [1, 2, 3] rfl
  exact ⟨rfl, by rw [h.1]; rfl, h.2 (by decide)⟩

/-! ## Data connection lemmas -/

theorem doRequest_decomp (g : ResponseHeader) (payload : List Nat)
    (hglen : g.length < 2 ^ 64) (hdr : RequestHeader) (src : List Nat) (dstLen : Nat) :
    doRequest hdr src (ResponseHeader.Encode g ++ payload) dstLen =
      doRequestBody g payload dstLen := by
  have h10 : (ResponseHeader.Encode g).length = 10 := by
    simp [ResponseHeader.Encode, putUint64BE_length]
  have htake : (ResponseHeader.Encode g ++ payload).take ResponseHeaderSize =
      ResponseHeader.Encode g := by
    show (ResponseHeader.Encode g ++ payload).take 10 = ResponseHeader.Encode g
    rw [← h10, List.take_left]
  have hdrop : (ResponseHeader.Encode g ++ payload).drop ResponseHeaderSize = payload := by
    show (ResponseHeader.Encode g ++ payload).drop 10 = payload
    rw [← h10, List.drop_left]
  unfold doRequest
  rw [if_neg (by simp [ResponseHeaderSize, h10]), htake, decode_encode_response g hglen, hdrop]

theorem statusErrorOf_of_ne_zero (s : Nat) (hs : s ≠ 0) : ∃ e, statusErrorOf s = some e := by
  unfold statusErrorOf
  rw [if_neg (by simpa [StatusOK] using hs)]
  split_ifs <;> exact ⟨_, rfl⟩

/-- C5: a `Read` whose non-empty destination buffer is smaller than the OK
response's announced length fills the buffer completely, consumes and
discards the excess from the stream, raises no error, and reports exactly the
buffer's length as the byte count. -/
theorem c5_partial_read_clamp (id : List Nat) (off : Nat) (L d : Nat) (payload : List Nat)
    (hd : 0 < d) (hdL : d < L) (hpl : L ≤ payload.length) (hL : L < 2 ^ 64) :
    DataClientRead id off d (ResponseHeader.Encode ⟨StatusOK, L⟩ ++ payload) =
      ⟨d, none, payload.take d, payload.drop L, true⟩ ∧
    (payload.take d).length = d := by
  constructor
  · rw [DataClientRead, doRequest_decomp ⟨StatusOK, L⟩ payload hL]
    unfold doRequestBody
    dsimp only
    rw [show min L d = d from by omega]
    rw [if_neg (by omega), if_pos (by omega), if_neg (by omega), if_pos hdL,
      if_neg (by rw [List.length_drop]; omega)]
    have hdrop2 : (payload.drop d).drop (L - d) = payload.drop L := by
      rw [List.drop_drop]
      congr 1
      omega
    rw [hdrop2]
    rfl
  · rw [List.length_take]
    omega

/-- C5 witness: announced length 4, buffer length 2 — the buffer gets the
first 2 bytes, the remaining 2 announced bytes are discarded, no error, byte
count 2. -/
theorem c5_witness :
    (0 < 2 ∧ 2 < 4 ∧ 4 ≤ ([10, 11, 12, 13, 99] : List Nat).length) ∧
    DataClientRead [] 0 2 (ResponseHeader.Encode ⟨StatusOK, 4⟩ ++ [10, 11, 12, 13, 99]) =
      ⟨2, none, [10, 11], [99], true⟩ :=
  ⟨⟨by decide, by decide, by decide⟩,
    ((c5_partial_read_clamp [] 0 4 2 [10, 11, 12, 13, 99]
      (by decide) (by decide) (by decide) (by norm_num)).1).trans (by decide)⟩

/-- C10: when the response status is one of the named non-OK statuses, `Read`
(via `doRequest`) returns the status's named error with a byte count of 0,
even though the response payload bytes were already copied into the caller's
buffer (the buffer is mutated: `dstBytes` is non-empty). -/
theorem c10_status_error_zero_count (id : List Nat) (off : Nat) (s L d : Nat)
    (payload : List Nat) (hs1 : 1 ≤ s) (hs6 : s ≤ 6) (hL0 : 0 < L) (hL : L < 2 ^ 64)
    (hd : 0 < d) (hpl : L ≤ payload.length) :
    (DataClientRead id off d (ResponseHeader.Encode ⟨s, L⟩ ++ payload)).n = 0 ∧
    (DataClientRead id off d (ResponseHeader.Encode ⟨s, L⟩ ++ payload)).err =
      statusErrorOf s ∧
    statusErrorOf s ≠ none ∧
    (DataClientRead id off d (ResponseHeader.Encode ⟨s, L⟩ ++ payload)).dstBytes =
      payload.take (min L d) ∧
    (DataClientRead id off d (ResponseHeader.Encode ⟨s, L⟩ ++ payload)).dstBytes ≠ [] := by
  obtain ⟨e, he⟩ := statusErrorOf_of_ne_zero s (by omega)
  have hout : DataClientRead id off d (ResponseHeader.Encode ⟨s, L⟩ ++ payload) =
      ⟨0, some e, payload.take (min L d),
        (payload.drop (min L d)).drop (L - d), true⟩ := by
    rw [DataClientRead, doRequest_decomp ⟨s, L⟩ payload hL]
    unfold doRequestBody
    dsimp only
    rw [if_neg (by omega), if_pos (by omega), if_neg (by omega)]
    by_cases hdL : d < L
    · rw [if_pos hdL, if_neg (by rw [List.length_drop]; omega), he]
    · rw [if_neg hdL, he]
      have : L - d = 0 := by omega
      rw [this, List.drop_zero]
  have htk : (payload.take (min L d)).length = min L d := by
    rw [List.length_take]
    omega
  refine ⟨by rw [hout], by rw [hout, he], by rw [he]; simp, by rw [hout], ?_⟩
  rw [hout]
  intro hnil
  have := congrArg List.length hnil
  rw [htk] at this
  simp at this
  omega

/-- C10 witness: status NotFound with a 3-byte announced payload and a 2-byte
buffer — the buffer receives 2 bytes, yet the call reports 0 bytes and the
named NotFound error. -/
theorem c10_witness :
    (1 ≤ StatusNotFound ∧ StatusNotFound ≤ 6 ∧ 0 < 3 ∧ 0 < 2 ∧
      3 ≤ ([7, 8, 9] : List Nat).length) ∧
    (DataClientRead [] 0 2 (ResponseHeader.Encode ⟨StatusNotFound, 3⟩ ++ [7, 8, 9])).n = 0 ∧
    (DataClientRead [] 0 2 (ResponseHeader.Encode ⟨StatusNotFound, 3⟩ ++ [7, 8, 9])).err =
      statusErrorOf StatusNotFound ∧
    (DataClientRead [] 0 2 (ResponseHeader.Encode ⟨StatusNotFound, 3⟩ ++ [7, 8, 9])).dstBytes =
      [7, 8] := by
  have h := c10_status_error_zero_count [] 0 StatusNotFound 3 2 [7, 8, 9]
    (by decide) (by decide) (by decide) (by norm_num) (by decide) (by decide)
  exact ⟨⟨by decide, by decide, by decide, by decide, by decide⟩,
    h.1, h.2.1, by rw [h.2.2.2.1]; decide⟩

/-- C6: decoding the encoding of any valid request header and any valid
response header yields the original header. -/
theorem c6_header_roundtrip (h : RequestHeader) (g : ResponseHeader)
    (hh : ValidRequestHeader h) (hg : ValidResponseHeader g) :
    DecodeRequestHeader (RequestHeader.Encode h) = .ok h ∧
    DecodeResponseHeader (ResponseHeader.Encode g) = .ok g :=
  ⟨decode_encode_request h hh.2.1 hh.2.2.2.1 hh.2.2.2.2, decode_encode_response g hg.2⟩

/-- C6 witness: a concrete Read request header and a concrete Sealed response
header survive the encode/decode round trip. -/
theorem c6_witness :
    ValidRequestHeader
      ⟨OpRead, [1, 2, 3, 4, 5, 6, 7, 8, 9, 10, 11, 12, 13, 14, 15, 16], 1000, 4096⟩ ∧
    ValidResponseHeader ⟨StatusSealed, 42⟩ ∧
    DecodeRequestHeader (RequestHeader.Encode
      ⟨OpRead, [1, 2, 3, 4, 5, 6, 7, 8, 9, 10, 11, 12, 13, 14, 15, 16], 1000, 4096⟩) =
      .ok ⟨OpRead, [1, 2, 3, 4, 5, 6, 7, 8, 9, 10, 11, 12, 13, 14, 15, 16], 1000, 4096⟩ ∧
    DecodeResponseHeader (ResponseHeader.Encode ⟨StatusSealed, 42⟩) =
      .ok ⟨StatusSealed, 42⟩ := by
  have h := c6_header_roundtrip
    ⟨OpRead, [1, 2, 3, 4, 5, 6, 7, 8, 9, 10, 11, 12, 13, 14, 15, 16], 1000, 4096⟩
    ⟨StatusSealed, 42⟩
    ⟨by decide, by decide, by decide, by decide, by decide⟩
    ⟨by decide, by decide⟩
  exact ⟨⟨by decide, by decide, by decide, by decide, by decide⟩,
    ⟨by decide, by decide⟩, h.1, h.2⟩

/-- C7: decoding a request (response) header succeeds exactly when the buffer
has at least the fixed header size — 34 (10) bytes — and its first byte is the
magic 0xBA; it fails with an error in every other case, regardless of the
remaining bytes. -/
theorem c7_decode_guards (buf : List Nat) :
    ((∃ h, DecodeRequestHeader buf = .ok h) ↔
      RequestHeaderSize ≤ buf.length ∧ buf.getD 0 0 = ProtocolMagic) ∧
    ((∃ g, DecodeResponseHeader buf = .ok g) ↔
      ResponseHeaderSize ≤ buf.length ∧ buf.getD 0 0 = ProtocolMagic) := by
  constructor
  · unfold DecodeRequestHeader
    split_ifs with h1 h2
    · exact iff_of_false (by simp) (fun ⟨hl, _⟩ => by omega)
    · exact iff_of_false (by simp) (fun ⟨_, hm⟩ => h2 hm)
    · exact iff_of_true ⟨_, rfl⟩ ⟨by omega, not_not.mp h2⟩
  · unfold DecodeResponseHeader
    split_ifs with h1 h2
    · exact iff_of_false (by simp) (fun ⟨hl, _⟩ => by omega)
    · exact iff_of_false (by simp) (fun ⟨_, hm⟩ => h2 hm)
    · exact iff_of_true ⟨_, rfl⟩ ⟨by omega, not_not.mp h2⟩

/-! ## Connection pool lemmas -/

theorem findPool_setPool_self (m : List (String × ServerPool)) (a : String) (sp : ServerPool) :
    findPool (setPool m a sp) a = some sp := by
  induction m with
  | nil => simp [setPool, findPool]
  | cons hd t ih =>
    obtain ⟨k, v⟩ := hd
    by_cases h : k = a
    · simp [setPool, findPool, h]
    · simp [setPool, findPool, h, ih]

theorem acquire_got (sp : ServerPool) (c : DClient) (sp1 : ServerPool)
    (h : sp.acquire = (.got c, sp1)) :
    sp.closed = false ∧ sp1.closed = false ∧ sp1.addr = sp.addr ∧
      (c ∈ sp.clients ∨ c.addr = sp.addr) := by
  unfold ServerPool.acquire at h
  by_cases hcl : sp.closed = true
  · rw [if_pos hcl] at h
    exact absurd h (by simp)
  · rw [if_neg hcl] at h
    have hclf : sp.closed = false := by simpa using hcl
    refine ⟨hclf, ?_⟩
    cases hlast : sp.clients.getLast? with
    | some c0 =>
      rw [hlast] at h
      simp only [Prod.mk.injEq, AcquireResult.got.injEq] at h
      obtain ⟨hc, hsp⟩ := h
      subst hc
      rw [← hsp]
      exact ⟨hclf, rfl, Or.inl (List.mem_of_mem_getLast? hlast)⟩
    | none =>
      rw [hlast] at h
      by_cases hcnt : sp.count < sp.poolSize
      · rw [if_pos hcnt] at h
        simp only [Prod.mk.injEq, AcquireResult.got.injEq] at h
        obtain ⟨hc, hsp⟩ := h
        rw [← hsp]
        refine ⟨hclf, rfl, Or.inr ?_⟩
        rw [← hc]
      · rw [if_neg hcnt] at h
        exact absurd h (by simp)

theorem release_closed (sp : ServerPool) (c : DClient) (h : sp.closed = true) :
    sp.release c = (sp, .connClosed, false) := by
  unfold ServerPool.release
  rw [if_pos h]

theorem release_open (sp : ServerPool) (c : DClient) (h : sp.closed = false) :
    sp.release c = ({ sp with clients := sp.clients ++ [c] }, .returnedToIdle, true) := by
  unfold ServerPool.release
  rw [if_neg (by simp [h])]

/-- Well-formedness of one registered sub-pool: it is keyed by its own address
and every idle client carries that address. -/
def ServerPoolWF (a : String) (sp : ServerPool) : Prop :=
  sp.addr = a ∧ ∀ c ∈ sp.clients, c.addr = a

/-- Well-formedness of the pool registry (an invariant of all states reachable
through the pool API). -/
def PoolWF (p : PoolState) : Prop :=
  ∀ a sp, findPool p.pools a = some sp → ServerPoolWF a sp

theorem Release_found_open (p : PoolState) (c : DClient) (sp : ServerPool)
    (hfind : findPool p.pools c.addr = some sp) (hop : sp.closed = false) :
    p.Release (some c) =
      ({ p with pools := setPool p.pools c.addr ({ sp with clients := sp.clients ++ [c] }) },
        .sub .returnedToIdle true) := by
  simp only [PoolState.Release]
  rw [hfind]
  dsimp only
  rw [release_open sp c hop]

theorem Acquire_found_got (p : PoolState) (addr : String) (sp : ServerPool)
    (hcl : p.closed = false) (hfind : findPool p.pools addr = some sp) :
    (p.Acquire addr).1 = sp.acquire.1 := by
  unfold PoolState.Acquire
  rw [if_neg (by simp [hcl]), hfind]

theorem acquire_push_got (sp : ServerPool) (c : DClient) (hop : sp.closed = false) :
    (ServerPool.acquire ({ sp with clients := sp.clients ++ [c] })).1 = .got c := by
  unfold ServerPool.acquire
  dsimp only
  rw [if_neg (by simp [hop]), List.getLast?_concat]

theorem acquire_release_acquire (p : PoolState) (addr : String) (c : DClient)
    (sp0 sp1 : ServerPool) (hcl : p.closed = false) (hwf0 : ServerPoolWF addr sp0)
    (hacq : sp0.acquire = (.got c, sp1)) :
    ((({ p with pools := setPool p.pools addr sp1 } : PoolState).Release
        (some c)).1.Acquire addr).1 = .got c := by
  obtain ⟨hcl0, hcl1, haddr1, hcaddr⟩ := acquire_got sp0 c sp1 hacq
  have hca : c.addr = addr := by
    rcases hcaddr with hmem | heq
    · exact hwf0.2 c hmem
    · rw [heq, hwf0.1]
  have hfind1 : findPool (setPool p.pools addr sp1) c.addr = some sp1 := by
    rw [hca]
    exact findPool_setPool_self p.pools addr sp1
  have hfind2 : findPool (setPool (setPool p.pools addr sp1) c.addr
      ({ sp1 with clients := sp1.clients ++ [c] })) addr =
      some ({ sp1 with clients := sp1.clients ++ [c] }) := by
    rw [hca]
    exact findPool_setPool_self _ _ _
  have hstep : ∀ (q : PoolState), q.closed = false →
      findPool q.pools addr = some ({ sp1 with clients := sp1.clients ++ [c] }) →
      (q.Acquire addr).1 = .got c := by
    intro q hqc hqf
    rw [Acquire_found_got q addr ({ sp1 with clients := sp1.clients ++ [c] }) hqc hqf,
      acquire_push_got sp1 c hcl1]
  rw [Release_found_open ({ p with pools := setPool p.pools addr sp1 }) c sp1 hfind1 hcl1]
  exact hstep _ hcl hfind2

/-- C8: on a well-formed pool, Acquire followed by Release of the returned
connection followed by Acquire on the same address, with no intervening
acquisitions, returns the identical connection instance (LIFO reuse of the
most recently released idle connection). -/
theorem c8_pool_lifo_reuse (p : PoolState) (addr : String) (c : DClient)
    (hwf : PoolWF p) (hacq : (p.Acquire addr).1 = .got c) :
    (((p.Acquire addr).2.Release (some c)).1.Acquire addr).1 = .got c := by
  by_cases hcl : p.closed = true
  · unfold PoolState.Acquire at hacq
    rw [if_pos hcl] at hacq
    simp at hacq
  · have hclf : p.closed = false := by simpa using hcl
    cases hfind : findPool p.pools addr with
    | some sp0 =>
      have hacqeq : p.Acquire addr =
          (sp0.acquire.1, { p with pools := setPool p.pools addr sp0.acquire.2 }) := by
        unfold PoolState.Acquire
        rw [if_neg hcl, hfind]
      rw [hacqeq] at hacq ⊢
      dsimp only at hacq ⊢
      exact acquire_release_acquire p addr c sp0 sp0.acquire.2 hclf (hwf addr sp0 hfind)
        (by rw [← hacq])
    | none =>
      have hacqeq : p.Acquire addr =
          ((newServerPool addr p.poolSize).acquire.1,
            { p with
              pools := setPool p.pools addr (newServerPool addr p.poolSize).acquire.2 }) := by
        unfold PoolState.Acquire
        rw [if_neg hcl, hfind]
      rw [hacqeq] at hacq ⊢
      dsimp only at hacq ⊢
      exact acquire_release_acquire p addr c (newServerPool addr p.poolSize)
        (newServerPool addr p.poolSize).acquire.2 hclf
        ⟨rfl, by intro x hx; simp [newServerPool] at hx⟩ (by rw [← hacq])

/-- C8 witness: a fresh pool creates connection ⟨"a", 0⟩; Acquire, Release,
Acquire on "a" returns that same instance. -/
theorem c8_witness :
    PoolWF NewDataClientPool ∧
    (NewDataClientPool.Acquire "a").1 = .got ⟨"a", 0⟩ ∧
    (((NewDataClientPool.Acquire "a").2.Release (some ⟨"a", 0⟩)).1.Acquire "a").1 =
      .got ⟨"a", 0⟩ := by
  have hwf : PoolWF NewDataClientPool := by
    intro a sp h
    simp [NewDataClientPool, findPool] at h
  exact ⟨hwf, by decide, c8_pool_lifo_reuse NewDataClientPool "a" ⟨"a", 0⟩ hwf (by decide)⟩

/-- C9 counterexample: Acquire a connection from a fresh pool, Close the whole
pool, then Release the connection — `Close` cleared the registry, so Release
finds no sub-pool and is a silent no-op: the connection is discarded but its
`Close` is never invoked, contradicting "closes the connection". -/
theorem c9_counterexample :
    (NewDataClientPool.Acquire "a").1 = AcquireResult.got ⟨"a", 0⟩ ∧
    (((NewDataClientPool.Acquire "a").2.Close).Release (some ⟨"a", 0⟩)).2 =
      PoolReleaseOutcome.noop := by decide

/-- C9 amended: releasing to a closed (still-registered) sub-pool closes the
connection and discards it without touching the idle stack or signalling;
releasing to an open sub-pool pushes the connection onto the idle stack and
signals one waiter; but after the whole pool is closed the registry is empty
and Release is a no-op that discards the connection without closing it. -/
theorem c9_release_semantics :
    (∀ (sp : ServerPool) (c : DClient), sp.closed = true →
      sp.release c = (sp, .connClosed, false)) ∧
    (∀ (sp : ServerPool) (c : DClient), sp.closed = false →
      sp.release c = ({ sp with clients := sp.clients ++ [c] }, .returnedToIdle, true)) ∧
    (∀ (p : PoolState) (c : DClient), p.closed = false →
      ((p.Close).Release (some c)).2 = .noop) := by
  refine ⟨release_closed, release_open, ?_⟩
  intro p c hcl
  unfold PoolState.Close
  rw [if_neg (by simp [hcl])]
  rfl

/-- C9 witness: a closed sub-pool closes the released connection; an open
sub-pool re-stacks it and signals; Release after whole-pool Close is a no-op. -/
theorem c9_witness :
    ((ServerPool.close (newServerPool "a" 8)).closed = true ∧
      (ServerPool.close (newServerPool "a" 8)).release ⟨"a", 0⟩ =
        (ServerPool.close (newServerPool "a" 8), .connClosed, false)) ∧
    ((newServerPool "b" 8).closed = false ∧
      (newServerPool "b" 8).release ⟨"b", 7⟩ =
        ({ newServerPool "b" 8 with clients := [⟨"b", 7⟩] }, .returnedToIdle, true)) ∧
    (NewDataClientPool.closed = false ∧
      ((NewDataClientPool.Close).Release (some ⟨"c", 1⟩)).2 = .noop) := by
  refine ⟨⟨rfl, c9_release_semantics.1 _ _ rfl⟩, ⟨rfl, ?_⟩,
    rfl, c9_release_semantics.2.2 NewDataClientPool ⟨"c", 1⟩ rfl⟩
  have h := c9_release_semantics.2.1 (newServerPool "b" 8) ⟨"b", 7⟩ rfl
  rw [h]
  rfl
